import Mathlib

/-
Verification development for the Perfetto android-probes normalizers
(src/trace_processor/importers/proto/android_probes_parser.cc) and the
trace-to-profile conversion glue (tools/trace_to_text/trace_to_profile.cc).

The C++ code is shallowly embedded: every normalizer becomes a pure Lean
function from a decoded packet and an explicit parser/storage state to a new
state.  Machine integer casts are modelled with explicit `% 2^w` arithmetic.
Collaborators that live outside the two source files (string interner, track
registry, process tracker, clock tracker, per-trace AndroidProbesTracker,
base::SprintfTrunc, base::StringToInt32) are modelled from the spec's
contracts; their doc comments say so explicitly.

Numeric counter values which the C++ code casts to double are modelled as
exact rationals (`Rat`); every IEEE double is a rational, and no property
proved below depends on double rounding.
-/

/-- Model of `static_cast<int64_t>` applied to an unsigned (wider) value:
reduce modulo 2^64 and reinterpret as two's complement. -/
def toInt64 (n : Nat) : Int :=
  if n % 2 ^ 64 < 2 ^ 63 then ((n % 2 ^ 64 : Nat) : Int)
  else ((n % 2 ^ 64 : Nat) : Int) - 2 ^ 64

/-- Model of `static_cast<int32_t>` applied to an unsigned value:
reduce modulo 2^32 and reinterpret as two's complement. -/
def toInt32 (n : Nat) : Int :=
  if n % 2 ^ 32 < 2 ^ 31 then ((n % 2 ^ 32 : Nat) : Int)
  else ((n % 2 ^ 32 : Nat) : Int) - 2 ^ 32

/-- Named stats counters touched by the android-probes normalizers
(`stats::...` keys used in android_probes_parser.cc). -/
inductive StatKey where
  | powerRailUnknownIndex
  | androidLogNumFailed
  | androidLogNumSkipped
  | androidLogNumTotal
  | packagesListHasReadErrors
  | packagesListHasParseErrors
  | gameInterventionHasReadErrors
  | gameInterventionHasParseErrors
deriving DecidableEq, Repr

/-- Counter Sample row: (timestamp ns, value, track handle), as appended by
`EventTracker::PushCounter`. -/
structure CounterSample where
  ts : Int
  value : Rat
  track : Nat
deriving DecidableEq, Repr

/-- Android log table row, as inserted at the end of `ParseAndroidLogEvent`:
(trace-time ts, utid, prio byte, tag string id, msg string id). -/
structure LogRow where
  ts : Int
  utid : Nat
  prio : Nat
  tag : Nat
  msg : Nat
deriving DecidableEq, Repr

/-- Package list table row, as inserted by `ParseAndroidPackagesList`. -/
structure PackageRow where
  nameId : Nat
  uid : Int
  debuggable : Bool
  profileableFromShell : Bool
  versionCode : Int
deriving DecidableEq, Repr

/-- Per-package fold accumulators of `ParseAndroidGameIntervention`: the three
(mode-present flag, downscale, angle, fps) groups for standard / performance /
battery mode. -/
structure GameModeAcc where
  isStandardMode : Bool
  standardDownscale : Option Rat
  standardAngle : Option Nat
  standardFps : Option Rat
  isPerformanceMode : Bool
  perfDownscale : Option Rat
  perfAngle : Option Nat
  perfFps : Option Rat
  isBatteryMode : Bool
  batteryDownscale : Option Rat
  batteryAngle : Option Nat
  batteryFps : Option Rat
deriving DecidableEq, Repr

/-- Game intervention table row: the flat tuple
(name id, uid, current mode, then the twelve accumulator columns, kept here as
the nested `GameModeAcc` record). -/
structure GameRow where
  nameId : Nat
  uid : Int
  currentMode : Int
  acc : GameModeAcc
deriving DecidableEq, Repr

/-- Slice row appended by `SliceTracker::Scoped` (device-state branch of
`ParseAndroidSystemProperty`): category is `none` for `kNullStringId`. -/
structure SliceRow where
  ts : Int
  track : Nat
  category : Option Nat
  name : Nat
  dur : Int
deriving DecidableEq, Repr

/-- Shared mutable state of one trace-ingestion context: the string interner,
the collaborator trackers, the storage tables and the stats counters.  String
and track handles are indices into the corresponding interning lists. -/
structure ParserState where
  strings : List String
  threadUpdates : List (Nat × Nat)
  globalCounterTracks : List Nat
  trackSetNames : List Nat
  scopedIntervals : List (Nat × Int × Int)
  counterSamples : List CounterSample
  slices : List SliceRow
  androidLogTable : List LogRow
  packageTable : List PackageRow
  gameInterventionTable : List GameRow
  seenPackages : List String
  powerRailTracks : List (Nat × Nat)
  stats : StatKey → Int

/-- First index of `a` in a list, `none` when absent. -/
def IdxOf {α : Type} [DecidableEq α] (a : α) : List α → Option Nat
  | [] => none
  | b :: l => if b = a then some 0 else (IdxOf a l).map (· + 1)

/-- Modelled from the spec: `intern_string(bytes) -> StringHandle`, idempotent
and never failing — an equal key returns the same handle, a fresh key is
appended to the interner and receives the next handle. -/
def InternString (st : ParserState) (s : String) : Nat × ParserState :=
  match IdxOf s st.strings with
  | some i => (i, st)
  | none => (st.strings.length, { st with strings := st.strings ++ [s] })

/-- Modelled from the spec: `intern_global_counter_track(name_handle) ->
TrackHandle`, creating the track on first use of the name handle. -/
def InternGlobalCounterTrack (st : ParserState) (nameId : Nat) :
    Nat × ParserState :=
  match IdxOf nameId st.globalCounterTracks with
  | some i => (i, st)
  | none =>
    (st.globalCounterTracks.length,
      { st with globalCounterTracks := st.globalCounterTracks ++ [nameId] })

/-- Modelled from the spec: `append_counter_sample(ts, value, track)`. -/
def PushCounter (st : ParserState) (ts : Int) (value : Rat) (track : Nat) :
    ParserState :=
  { st with counterSamples := st.counterSamples ++ [⟨ts, value, track⟩] }

/-- Modelled from the spec: `resolve_thread(tid, pid) -> ThreadHandle`
(`ProcessTracker::UpdateThread`): records the resolution call and returns a
nonzero handle (0 is the caller's "no associated thread" sentinel). -/
def UpdateThread (st : ParserState) (tid pid : Nat) : Nat × ParserState :=
  (st.threadUpdates.length + 1,
    { st with threadUpdates := st.threadUpdates ++ [(tid, pid)] })

/-- Modelled from the spec: `set_stat(name, value)` overwrite semantics. -/
def SetStats (st : ParserState) (k : StatKey) (v : Int) : ParserState :=
  { st with stats := fun k' => if k' = k then v else st.stats k' }

/-- Modelled from the spec: `increment_stat(name)`. -/
def IncrementStats (st : ParserState) (k : StatKey) : ParserState :=
  { st with stats := fun k' => if k' = k then st.stats k' + 1 else st.stats k' }

/-- Modelled from the spec: `intern_scoped_track_set(name_handle)`
(`AsyncTrackSetTracker::InternGlobalTrackSet`). -/
def InternGlobalTrackSet (st : ParserState) (nameId : Nat) :
    Nat × ParserState :=
  match IdxOf nameId st.trackSetNames with
  | some i => (i, st)
  | none =>
    (st.trackSetNames.length,
      { st with trackSetNames := st.trackSetNames ++ [nameId] })

/-- Modelled from the spec: `open_scoped_interval(track_set, ts, nesting) ->
TrackHandle` (`AsyncTrackSetTracker::Scoped`): records the scoped interval and
returns a handle for it. -/
def ScopedTrack (st : ParserState) (trackSet : Nat) (ts dur : Int) :
    Nat × ParserState :=
  (st.scopedIntervals.length,
    { st with scopedIntervals := st.scopedIntervals ++ [(trackSet, ts, dur)] })

/-- Modelled from the spec: `append_interval` (`SliceTracker::Scoped`). -/
def ScopedSlice (st : ParserState) (ts : Int) (track : Nat)
    (category : Option Nat) (nameId : Nat) (dur : Int) : ParserState :=
  { st with slices := st.slices ++ [⟨ts, track, category, nameId, dur⟩] }

/-- Modelled from the spec: `lookup_power_rail_track(index) -> TrackHandle |
none` (`AndroidProbesTracker::GetPowerRailTrack`) — a read-only map populated
during tokenization. -/
def GetPowerRailTrack (st : ParserState) (index : Nat) : Option Nat :=
  st.powerRailTracks.lookup index

/-- Empty trace-ingestion state (all registries and tables empty, all stats
counters 0, no power-rail bindings). -/
def EmptyState : ParserState where
  strings := []
  threadUpdates := []
  globalCounterTracks := []
  trackSetNames := []
  scopedIntervals := []
  counterSamples := []
  slices := []
  androidLogTable := []
  packageTable := []
  gameInterventionTable := []
  seenPackages := []
  powerRailTracks := []
  stats := fun _ => 0

/-- Interned name id `batt.charge_uah` from the `AndroidProbesParser`
constructor (first constructor intern against the empty interner). -/
def battChargeId : Nat := (InternString EmptyState "batt.charge_uah").1

def ctorState1 : ParserState := (InternString EmptyState "batt.charge_uah").2

/-- Interned name id `batt.capacity_pct` from the constructor. -/
def battCapacityId : Nat := (InternString ctorState1 "batt.capacity_pct").1

def ctorState2 : ParserState := (InternString ctorState1 "batt.capacity_pct").2

/-- Interned name id `batt.current_ua` from the constructor. -/
def battCurrentId : Nat := (InternString ctorState2 "batt.current_ua").1

def ctorState3 : ParserState := (InternString ctorState2 "batt.current_ua").2

/-- Interned name id `batt.current.avg_ua` from the constructor. -/
def battCurrentAvgId : Nat :=
  (InternString ctorState3 "batt.current.avg_ua").1

def ctorState4 : ParserState := (InternString ctorState3 "batt.current.avg_ua").2

/-- Interned name id `ScreenState` from the constructor. -/
def screenStateId : Nat := (InternString ctorState4 "ScreenState").1

def ctorState5 : ParserState := (InternString ctorState4 "ScreenState").2

/-- Interned name id `DeviceStateChanged` from the constructor. -/
def deviceStateId : Nat := (InternString ctorState5 "DeviceStateChanged").1

/-- State right after `AndroidProbesParser`'s constructor ran against an empty
trace context: the six constructor names interned, nothing else. -/
def InitState : ParserState := (InternString ctorState5 "DeviceStateChanged").2

/-- Decoded `BatteryCounters` payload: four optional sub-counters.
`capacity_percent` is a float field in the proto, hence a rational here. -/
structure BatteryCounters where
  chargeCounterUah : Option Int
  capacityPercent : Option Rat
  currentUa : Option Int
  currentAvgUa : Option Int
deriving DecidableEq, Repr

/-- Decoded `PowerRails.EnergyData` sub-message (see the tokenizer contract in
the source: exactly one reading per packet reaches the parser). -/
structure EnergyData where
  index : Nat
  timestampMs : Nat
  energy : Nat
deriving DecidableEq, Repr

/-- Decoded `PowerRails` payload as seen by `ParsePowerRails`: by the
tokenizer's contract it carries exactly one `EnergyData` reading. -/
structure PowerRails where
  energyData : EnergyData
deriving DecidableEq, Repr

/-- Decoded `AndroidLogPacket.LogEvent.Arg`: optional name and the three
value variants checked in source order (string, then int, then float).
The float field is modelled as an exact rational. -/
structure LogArg where
  name : Option String
  stringValue : Option String
  intValue : Option Int
  floatValue : Option Rat
deriving DecidableEq, Repr

/-- Decoded `AndroidLogPacket.LogEvent`.  Integer fields carry the raw decoded
values; the parser applies the source's narrowing casts itself. -/
structure LogEvent where
  timestamp : Nat
  pid : Nat
  tid : Nat
  prio : Nat
  tag : Option String
  message : Option String
  args : List LogArg
deriving DecidableEq, Repr

/-- Decoded `AndroidLogPacket.Stats`: three optional uint64 counters. -/
structure LogStats where
  numFailed : Option Nat
  numSkipped : Option Nat
  numTotal : Option Nat
deriving DecidableEq, Repr

/-- Decoded `PackagesList.PackageInfo` entry. -/
structure PackageInfo where
  name : String
  uid : Nat
  debuggable : Bool
  profileableFromShell : Bool
  versionCode : Nat
deriving DecidableEq, Repr

/-- Decoded `PackagesList` payload. -/
structure PackagesList where
  readError : Bool
  parseError : Bool
  packages : List PackageInfo
deriving DecidableEq, Repr

/-- Decoded `AndroidGameInterventionList.GameModeInfo` sub-record: mode number
plus (downscale, use-angle, fps); float fields modelled as rationals. -/
structure GameModeInfo where
  mode : Nat
  resolutionDownscale : Rat
  useAngle : Nat
  fps : Rat
deriving DecidableEq, Repr

/-- Decoded `AndroidGameInterventionList.GamePackageInfo` entry. -/
structure GamePackageInfo where
  name : String
  uid : Nat
  currentMode : Nat
  gameModeInfo : List GameModeInfo
deriving DecidableEq, Repr

/-- Decoded `AndroidGameInterventionList` payload. -/
structure AndroidGameInterventionList where
  readError : Bool
  parseError : Bool
  gamePackages : List GamePackageInfo
deriving DecidableEq, Repr

/-- Decoded `AndroidSystemProperty.PropertyValue` key/value pair. -/
structure PropertyValue where
  name : String
  value : String
deriving DecidableEq, Repr

/-- Decoded `AndroidSystemProperty` payload. -/
structure AndroidSystemProperty where
  values : List PropertyValue
deriving DecidableEq, Repr

/-- Modelled from the spec: a saturating bounded fragment write
(`base::SprintfTrunc` into the remaining capacity of the 4096-byte buffer,
whose definition is outside the given sources).  With `avail` bytes of
remaining capacity (terminator included) it writes at most `avail - 1`
characters of the fragment and nothing at all when `avail = 0`; the cursor
advances by exactly the number of characters written. -/
def TruncWrite (avail : Nat) (frag : List Char) : List Char :=
  if avail = 0 then [] else frag.take (avail - 1)

/-- Remaining capacity of the 4096-byte argument buffer given the characters
already written (the `arg_avail` lambda in `ParseAndroidLogEvent`; `used` is
the cursor offset, i.e. the current buffer content length). -/
def ArgAvail (buf : List Char) : Nat := 4096 - buf.length

/-- One saturating append of a fragment to the argument buffer
(`arg_str += base::SprintfTrunc(arg_str, arg_avail(), ...)`). -/
def AppendFrag (buf : List Char) (frag : List Char) : List Char :=
  buf ++ TruncWrite (ArgAvail buf) frag

/-- Fragments one `Arg` sub-message contributes to the argument buffer, in
source order: nothing for an unnamed arg, else the `" name="` piece followed
by the value piece (quoted string / decimal int64 / `%f` float, the float
rendering modelled by `Rat`'s decimal form; only fragment lengths matter for
the properties below). -/
def FragsOfArg (a : LogArg) : List (List Char) :=
  match a.name with
  | none => []
  | some n =>
    (" " ++ n ++ "=").data ::
    match a.stringValue with
    | some s => [("\"" ++ s ++ "\"").data]
    | none =>
      match a.intValue with
      | some i => [(toString i).data]
      | none =>
        match a.floatValue with
        | some q => [(toString q).data]
        | none => []

/-- Synthesized argument message of `ParseAndroidLogEvent`: fold every
argument's fragments through the saturating 4096-byte buffer, starting from
the empty buffer. -/
def BuildArgMsg (args : List LogArg) : List Char :=
  args.foldl (fun buf a => (FragsOfArg a).foldl AppendFrag buf) []

/-- Modelled from the spec: `base::StringToInt32` — parse the whole string as
an optional-signed decimal integer and require the value to fit in a signed
32-bit integer; any other input (empty, stray characters, overflow) fails. -/
def DigitsToNat : List Char → Option Nat
  | [] => none
  | [c] => if c.isDigit then some (c.toNat - 48) else none
  | c :: cs =>
    if c.isDigit then
      (DigitsToNat cs).map (fun n => (c.toNat - 48) * 10 ^ cs.length + n)
    else none

/-- Modelled from the spec: signed 32-bit parse used for the screen-state
property value; `none` on parse failure. -/
def StringToInt32 (s : String) : Option Int :=
  let signed : Int × List Char :=
    match s.data with
    | '-' :: cs => (-1, cs)
    | '+' :: cs => (1, cs)
    | cs => (1, cs)
  match DigitsToNat signed.2 with
  | none => none
  | some n =>
    let v : Int := signed.1 * n
    if -(2 ^ 31) ≤ v ∧ v < 2 ^ 31 then some v else none

/-- The `PRIO_INFO` sentinel of `protos::pbzero::AndroidLogPriority`.
Modelled from the spec: the "INFO" default priority (value 4 in the Android
log constants, which are outside the given sources). -/
def prioInfo : Nat := 4

/-- The `BUILTIN_CLOCK_REALTIME` domain id of `protos::pbzero::BuiltinClock`.
Modelled from the spec: the realtime clock domain used to translate log event
timestamps (value 1 in the builtin-clock constants, outside the sources). -/
def builtinClockRealtime : Nat := 1

/-- Embedding of `AndroidProbesParser::ParseBatteryCounters`: for each of the
four optional sub-counters present in the payload, intern the corresponding
global counter track and push one counter sample at `ts`. -/
def ParseBatteryCounters (ts : Int) (evt : BatteryCounters)
    (st : ParserState) : ParserState :=
  let st :=
    match evt.chargeCounterUah with
    | some v =>
      let p := InternGlobalCounterTrack st battChargeId
      PushCounter p.2 ts (v : Rat) p.1
    | none => st
  let st :=
    match evt.capacityPercent with
    | some v =>
      let p := InternGlobalCounterTrack st battCapacityId
      PushCounter p.2 ts v p.1
    | none => st
  let st :=
    match evt.currentUa with
    | some v =>
      let p := InternGlobalCounterTrack st battCurrentId
      PushCounter p.2 ts (v : Rat) p.1
    | none => st
  match evt.currentAvgUa with
  | some v =>
    let p := InternGlobalCounterTrack st battCurrentAvgId
    PushCounter p.2 ts (v : Rat) p.1
  | none => st

/-- Embedding of `AndroidProbesParser::ParsePowerRails`: look the reading's
rail index up in the per-trace power-rail binding map; on a hit push one
counter sample (energy as double) on the bound track, on a miss increment the
`power_rail_unknown_index` stat and drop the sample.  The debug-only
`PERFETTO_DCHECK`s (exactly one reading, millisecond-timestamp consistency)
are assertions with no release-build effect and are not modelled. -/
def ParsePowerRails (ts : Int) (evt : PowerRails) (st : ParserState) :
    ParserState :=
  match GetPowerRailTrack st evt.energyData.index with
  | some track => PushCounter st ts (evt.energyData.energy : Rat) track
  | none => IncrementStats st StatKey.powerRailUnknownIndex

/-- Embedding of `AndroidProbesParser::ParseAndroidLogEvent`.  The clock
translator (`ClockTracker::ToTraceTime`, an external collaborator) is passed
as the function `clock` from (builtin clock domain, raw timestamp) to an
optional trace timestamp.  Statements and side effects follow source order:
tag and message interning, argument-buffer synthesis, priority defaulting,
synthesized-message interning, thread resolution, and only then the clock
translation whose failure discards the event (no row insert). -/
def ParseAndroidLogEvent (clock : Nat → Int → Option Int) (evt : LogEvent)
    (st : ParserState) : ParserState :=
  let ts : Int := toInt64 evt.timestamp
  let pid : Nat := evt.pid % 2 ^ 32
  let tid : Nat := evt.tid % 2 ^ 32
  let prio : Nat := evt.prio % 2 ^ 8
  let p1 := InternString st (evt.tag.getD "")
  let tagId := p1.1
  let p2 := InternString p1.2 (evt.message.getD "")
  let st2 := p2.2
  let argMsg := BuildArgMsg evt.args
  let prio := if prio = 0 then prioInfo else prio
  let p3 :=
    if argMsg.length ≠ 0 then InternString st2 (String.mk (argMsg.drop 1))
    else (p2.1, st2)
  let msgId := p3.1
  let p4 := if tid ≠ 0 then UpdateThread p3.2 tid pid else (0, p3.2)
  let utid := p4.1
  let st4 := p4.2
  match clock builtinClockRealtime ts with
  | none => st4
  | some traceTime =>
    { st4 with
      androidLogTable :=
        st4.androidLogTable ++ [⟨traceTime, utid, prio, tagId, msgId⟩] }

/-- Embedding of `AndroidProbesParser::ParseAndroidLogStats`: each of the
three counters present in the payload is written (overwrite) to its named
stat; absent counters leave the stat untouched. -/
def ParseAndroidLogStats (evt : LogStats) (st : ParserState) : ParserState :=
  let st :=
    match evt.numFailed with
    | some v => SetStats st StatKey.androidLogNumFailed (toInt64 v)
    | none => st
  let st :=
    match evt.numSkipped with
    | some v => SetStats st StatKey.androidLogNumSkipped (toInt64 v)
    | none => st
  match evt.numTotal with
  | some v => SetStats st StatKey.androidLogNumTotal (toInt64 v)
  | none => st

/-- Per-entry body of `ParseAndroidPackagesList`'s loop: consult the
per-trace seen set (`AndroidProbesTracker::ShouldInsertPackage`, modelled
from the spec as "name not yet marked seen"); a fresh name is interned,
inserted as a package row and marked seen (`InsertedPackage`), an
already-seen name is skipped (`continue`). -/
def PackageLoop (st : ParserState) (pkg : PackageInfo) : ParserState :=
  if pkg.name ∈ st.seenPackages then st
  else
    let p := InternString st pkg.name
    let row : PackageRow :=
      ⟨p.1, toInt64 pkg.uid, pkg.debuggable, pkg.profileableFromShell,
        toInt64 pkg.versionCode⟩
    let st := { p.2 with packageTable := p.2.packageTable ++ [row] }
    { st with seenPackages := st.seenPackages ++ [pkg.name] }

/-- Embedding of `AndroidProbesParser::ParseAndroidPackagesList`: set the two
list-level error stats unconditionally, then run `PackageLoop` over the
entries. -/
def ParseAndroidPackagesList (evt : PackagesList) (st : ParserState) :
    ParserState :=
  let st := SetStats st StatKey.packagesListHasReadErrors
    (if evt.readError then 1 else 0)
  let st := SetStats st StatKey.packagesListHasParseErrors
    (if evt.parseError then 1 else 0)
  evt.packages.foldl PackageLoop st

/-- Fold step of `ParseAndroidGameIntervention`'s inner loop: a sub-record
with mode 1/2/3 overwrites the standard/performance/battery accumulator group
(present flag true, downscale, angle, fps); any other mode number leaves the
accumulators unchanged. -/
def FoldGameMode (acc : GameModeAcc) (m : GameModeInfo) : GameModeAcc :=
  if m.mode = 1 then
    { acc with
      isStandardMode := true
      standardDownscale := some m.resolutionDownscale
      standardAngle := some m.useAngle
      standardFps := some m.fps }
  else if m.mode = 2 then
    { acc with
      isPerformanceMode := true
      perfDownscale := some m.resolutionDownscale
      perfAngle := some m.useAngle
      perfFps := some m.fps }
  else if m.mode = 3 then
    { acc with
      isBatteryMode := true
      batteryDownscale := some m.resolutionDownscale
      batteryAngle := some m.useAngle
      batteryFps := some m.fps }
  else acc

/-- All-absent initial accumulators of `ParseAndroidGameIntervention`. -/
def InitGameModeAcc : GameModeAcc where
  isStandardMode := false
  standardDownscale := none
  standardAngle := none
  standardFps := none
  isPerformanceMode := false
  perfDownscale := none
  perfAngle := none
  perfFps := none
  isBatteryMode := false
  batteryDownscale := none
  batteryAngle := none
  batteryFps := none

/-- Per-entry body of `ParseAndroidGameIntervention`'s loop: fold the entry's
mode sub-records into the three accumulators and insert exactly one game
intervention row for the entry. -/
def GameLoop (st : ParserState) (pkg : GamePackageInfo) : ParserState :=
  let acc := pkg.gameModeInfo.foldl FoldGameMode InitGameModeAcc
  let p := InternString st pkg.name
  { p.2 with
    gameInterventionTable := p.2.gameInterventionTable ++
      [⟨p.1, toInt64 pkg.uid, toInt32 pkg.currentMode, acc⟩] }

/-- Embedding of `AndroidProbesParser::ParseAndroidGameIntervention`: set the
two list-level error stats unconditionally, then run `GameLoop` over the
package entries. -/
def ParseAndroidGameIntervention (evt : AndroidGameInterventionList)
    (st : ParserState) : ParserState :=
  let st := SetStats st StatKey.gameInterventionHasReadErrors
    (if evt.readError then 1 else 0)
  let st := SetStats st StatKey.gameInterventionHasParseErrors
    (if evt.parseError then 1 else 0)
  evt.gamePackages.foldl GameLoop st

/-- Embedding of `AndroidProbesParser::ParseAndroidSystemProperty`: iterate
the key/value pairs; a `debug.tracing.screen_state` value that parses as a
signed 32-bit integer pushes one counter sample on the screen-state track and
a value that fails to parse is dropped silently; a `debug.tracing.device_state`
value opens a zero-duration scoped slice labelled with the interned value on
the device-state scoped track set; any other key is ignored. -/
def ParseAndroidSystemProperty (ts : Int) (evt : AndroidSystemProperty)
    (st : ParserState) : ParserState :=
  evt.values.foldl
    (fun st kv =>
      if kv.name = "debug.tracing.screen_state" then
        match StringToInt32 kv.value with
        | some state =>
          let p := InternGlobalCounterTrack st screenStateId
          PushCounter p.2 ts (state : Rat) p.1
        | none => st
      else if kv.name = "debug.tracing.device_state" then
        let p1 := InternString st kv.value
        let p2 := InternGlobalTrackSet p1.2 deviceStateId
        let p3 := ScopedTrack p2.2 p2.1 ts 0
        ScopedSlice p3.2 ts p3.1 none p1.1 0
      else st)
    st

/-- One pprof profile produced by the conversion (`SerializedProfile` of the
pprof builder, an external collaborator of trace_to_profile.cc). -/
structure SerializedProfile where
  pid : Nat
  heapName : String
  serialized : String
deriving DecidableEq, Repr

/-- Filesystem side effects of `TraceToProfile`, recorded as an explicit
effect trace: directory creation (`base::Mkdir`) and profile-file writing
(`base::OpenFile` + `base::WriteAll`, creation and full write modelled as one
effect on the success path the source asserts with `PERFETTO_CHECK`). -/
inductive FsOp where
  | mkdir (path : String)
  | writeFile (path : String) (contents : String)
deriving DecidableEq, Repr

/-- Profile file name used by `TraceToProfile` for the `itr`-th profile
(1-based): `<dir>/heap_dump.<itr>.<pid>.<heap_name>.pb`. -/
def ProfileFileName (dir : String) (itr : Nat) (p : SerializedProfile) :
    String :=
  dir ++ "/heap_dump." ++ toString itr ++ "." ++ toString p.pid ++ "." ++
    p.heapName ++ ".pb"

/-- Write loop of `TraceToProfile`: one file per profile, with the counter
`itr` pre-incremented before use (so the first file index is `i + 1`). -/
def WriteProfiles (dir : String) (i : Nat) :
    List SerializedProfile → List FsOp
  | [] => []
  | p :: ps =>
    FsOp.writeFile (ProfileFileName dir (i + 1) p) p.serialized ::
      WriteProfiles dir (i + 1) ps

/-- Embedding of `perfetto::trace_to_text::TraceToProfile`, abstracted over
the collaborators: `profiles` is the output of `TraceToPprof` (external),
`tmp` the result of `GetTemp()` and `timeFmt` the result of
`base::GetTimeFmt` (both environment-dependent).  It returns the exit code,
the filesystem effect trace, and the message written to the output stream
(`none` when nothing is printed). -/
def TraceToProfile (profiles : List SerializedProfile) (tmp timeFmt : String) :
    Int × List FsOp × Option String :=
  if profiles.isEmpty then (0, [], none)
  else
    let tempDir := tmp ++ "/heap_profile-" ++ timeFmt
    (0, FsOp.mkdir tempDir :: WriteProfiles tempDir 0 profiles,
      some ("Wrote profiles to " ++ tempDir))

/-- Spec-side definition (from the spec's words in §4.6): the last sub-record
carrying mode number `k`, if any — "if multiple sub-records share a mode
number, the last one wins". -/
def LastOfMode (k : Nat) (ms : List GameModeInfo) : Option GameModeInfo :=
  (ms.filter (fun m => m.mode == k)).getLast?

/-- Spec-side definition (from the spec's words in §4.6): the accumulator
state after folding a sub-record list — each mode group is present exactly
when some sub-record carried that mode, holding the last such sub-record's
values; mode numbers outside {1,2,3} contribute nothing. -/
def AccOfModes (ms : List GameModeInfo) : GameModeAcc where
  isStandardMode := (LastOfMode 1 ms).isSome
  standardDownscale := (LastOfMode 1 ms).map (·.resolutionDownscale)
  standardAngle := (LastOfMode 1 ms).map (·.useAngle)
  standardFps := (LastOfMode 1 ms).map (·.fps)
  isPerformanceMode := (LastOfMode 2 ms).isSome
  perfDownscale := (LastOfMode 2 ms).map (·.resolutionDownscale)
  perfAngle := (LastOfMode 2 ms).map (·.useAngle)
  perfFps := (LastOfMode 2 ms).map (·.fps)
  isBatteryMode := (LastOfMode 3 ms).isSome
  batteryDownscale := (LastOfMode 3 ms).map (·.resolutionDownscale)
  batteryAngle := (LastOfMode 3 ms).map (·.useAngle)
  batteryFps := (LastOfMode 3 ms).map (·.fps)

/-- Dedup invariant of the package table: the rows' interned names, in
insertion order, are exactly the per-trace seen set, and the seen set holds
no duplicate name. -/
def PackageInv (st : ParserState) : Prop :=
  st.packageTable.map (fun r => st.strings[r.nameId]?) =
    st.seenPackages.map some ∧ st.seenPackages.Nodup

instance (st : ParserState) : Decidable (PackageInv st) := by
  unfold PackageInv; infer_instance

theorem idxOf_lt_length {α : Type} [DecidableEq α] {a : α} {l : List α}
    {i : Nat} (h : IdxOf a l = some i) : i < l.length := by
  induction l generalizing i with
  | nil => simp [IdxOf] at h
  | cons b l ih =>
    by_cases hb : b = a
    · simp only [IdxOf, if_pos hb, Option.some.injEq] at h
      simp [← h]
    · simp only [IdxOf, if_neg hb, Option.map_eq_some'] at h
      rcases h with ⟨j, hj, rfl⟩
      have := ih hj
      simp only [List.length_cons]
      omega

theorem idxOf_getElem {α : Type} [DecidableEq α] {a : α} {l : List α}
    {i : Nat} (h : IdxOf a l = some i) : l[i]? = some a := by
  induction l generalizing i with
  | nil => simp [IdxOf] at h
  | cons b l ih =>
    by_cases hb : b = a
    · simp only [IdxOf, if_pos hb, Option.some.injEq] at h
      simp [← h, hb]
    · simp only [IdxOf, if_neg hb, Option.map_eq_some'] at h
      rcases h with ⟨j, hj, rfl⟩
      simpa using ih hj

theorem getElem?_of_extend {α : Type} {l₁ l₂ : List α} {i : Nat} {a : α}
    (h : ∃ l', l₂ = l₁ ++ l') (hi : l₁[i]? = some a) : l₂[i]? = some a := by
  rcases h with ⟨l', rfl⟩
  have hlt : i < l₁.length := by
    by_contra hge
    rw [List.getElem?_eq_none (by omega)] at hi
    exact Option.noConfusion hi
  rw [List.getElem?_append]
  simp [hlt, hi]

@[simp] theorem internString_androidLogTable (st : ParserState) (s : String) :
    ((InternString st s).2).androidLogTable = st.androidLogTable := by
  rcases h : IdxOf s st.strings with _ | i <;> simp [InternString, h]

@[simp] theorem internString_counterSamples (st : ParserState) (s : String) :
    ((InternString st s).2).counterSamples = st.counterSamples := by
  rcases h : IdxOf s st.strings with _ | i <;> simp [InternString, h]

@[simp] theorem internString_globalCounterTracks (st : ParserState)
    (s : String) :
    ((InternString st s).2).globalCounterTracks = st.globalCounterTracks := by
  rcases h : IdxOf s st.strings with _ | i <;> simp [InternString, h]

@[simp] theorem internString_stats (st : ParserState) (s : String) :
    ((InternString st s).2).stats = st.stats := by
  rcases h : IdxOf s st.strings with _ | i <;> simp [InternString, h]

@[simp] theorem internString_packageTable (st : ParserState) (s : String) :
    ((InternString st s).2).packageTable = st.packageTable := by
  rcases h : IdxOf s st.strings with _ | i <;> simp [InternString, h]

@[simp] theorem internString_seenPackages (st : ParserState) (s : String) :
    ((InternString st s).2).seenPackages = st.seenPackages := by
  rcases h : IdxOf s st.strings with _ | i <;> simp [InternString, h]

@[simp] theorem internString_gameTable (st : ParserState) (s : String) :
    ((InternString st s).2).gameInterventionTable =
      st.gameInterventionTable := by
  rcases h : IdxOf s st.strings with _ | i <;> simp [InternString, h]

theorem internString_strings_extend (st : ParserState) (s : String) :
    ∃ l, ((InternString st s).2).strings = st.strings ++ l := by
  rcases h : IdxOf s st.strings with _ | i
  · exact ⟨[s], by simp [InternString, h]⟩
  · exact ⟨[], by simp [InternString, h]⟩

theorem internString_get (st : ParserState) (s : String) :
    ((InternString st s).2).strings[(InternString st s).1]? = some s := by
  rcases h : IdxOf s st.strings with _ | i
  · simp [InternString, h]
  · simpa [InternString, h] using idxOf_getElem h

@[simp] theorem updateThread_androidLogTable (st : ParserState) (t p : Nat) :
    ((UpdateThread st t p).2).androidLogTable = st.androidLogTable := rfl

@[simp] theorem updateThread_strings (st : ParserState) (t p : Nat) :
    ((UpdateThread st t p).2).strings = st.strings := rfl

@[simp] theorem internTrack_counterSamples (st : ParserState) (n : Nat) :
    ((InternGlobalCounterTrack st n).2).counterSamples =
      st.counterSamples := by
  rcases h : IdxOf n st.globalCounterTracks with _ | i <;>
    simp [InternGlobalCounterTrack, h]

@[simp] theorem internTrack_stats (st : ParserState) (n : Nat) :
    ((InternGlobalCounterTrack st n).2).stats = st.stats := by
  rcases h : IdxOf n st.globalCounterTracks with _ | i <;>
    simp [InternGlobalCounterTrack, h]

theorem internTrack_tracks_extend (st : ParserState) (n : Nat) :
    ∃ l, ((InternGlobalCounterTrack st n).2).globalCounterTracks =
      st.globalCounterTracks ++ l := by
  rcases h : IdxOf n st.globalCounterTracks with _ | i
  · exact ⟨[n], by simp [InternGlobalCounterTrack, h]⟩
  · exact ⟨[], by simp [InternGlobalCounterTrack, h]⟩

theorem internTrack_get (st : ParserState) (n : Nat) :
    ((InternGlobalCounterTrack st n).2).globalCounterTracks[(InternGlobalCounterTrack st n).1]? = some n := by
  rcases h : IdxOf n st.globalCounterTracks with _ | i
  · simp [InternGlobalCounterTrack, h]
  · simpa [InternGlobalCounterTrack, h] using idxOf_getElem h

@[simp] theorem pushCounter_globalCounterTracks (st : ParserState) (ts : Int)
    (v : Rat) (t : Nat) :
    (PushCounter st ts v t).globalCounterTracks = st.globalCounterTracks :=
  rfl

@[simp] theorem pushCounter_counterSamples (st : ParserState) (ts : Int)
    (v : Rat) (t : Nat) :
    (PushCounter st ts v t).counterSamples =
      st.counterSamples ++ [⟨ts, v, t⟩] := rfl

@[simp] theorem pushCounter_stats (st : ParserState) (ts : Int) (v : Rat)
    (t : Nat) : (PushCounter st ts v t).stats = st.stats := rfl

@[simp] theorem setStats_packageTable (st : ParserState) (k : StatKey)
    (v : Int) : (SetStats st k v).packageTable = st.packageTable := rfl

@[simp] theorem setStats_seenPackages (st : ParserState) (k : StatKey)
    (v : Int) : (SetStats st k v).seenPackages = st.seenPackages := rfl

@[simp] theorem setStats_strings (st : ParserState) (k : StatKey) (v : Int) :
    (SetStats st k v).strings = st.strings := rfl

@[simp] theorem setStats_gameTable (st : ParserState) (k : StatKey)
    (v : Int) :
    (SetStats st k v).gameInterventionTable = st.gameInterventionTable := rfl

@[simp] theorem setStats_counterSamples (st : ParserState) (k : StatKey)
    (v : Int) : (SetStats st k v).counterSamples = st.counterSamples := rfl

@[simp] theorem incrementStats_counterSamples (st : ParserState)
    (k : StatKey) : (IncrementStats st k).counterSamples =
      st.counterSamples := rfl

@[simp] theorem incrementStats_globalCounterTracks (st : ParserState)
    (k : StatKey) : (IncrementStats st k).globalCounterTracks =
      st.globalCounterTracks := rfl

@[simp] theorem incrementStats_powerRailTracks (st : ParserState)
    (k : StatKey) : (IncrementStats st k).powerRailTracks =
      st.powerRailTracks := rfl

@[simp] theorem pushCounter_powerRailTracks (st : ParserState) (ts : Int)
    (v : Rat) (t : Nat) :
    (PushCounter st ts v t).powerRailTracks = st.powerRailTracks := rfl

theorem appendFrag_length_le (buf frag : List Char)
    (h : buf.length ≤ 4095) : (AppendFrag buf frag).length ≤ 4095 := by
  unfold AppendFrag TruncWrite ArgAvail
  split
  · simpa using h
  · simp only [List.length_append, List.length_take]
    omega

theorem foldFrags_length_le (fs : List (List Char)) (buf : List Char)
    (h : buf.length ≤ 4095) : (fs.foldl AppendFrag buf).length ≤ 4095 := by
  induction fs generalizing buf with
  | nil => simpa using h
  | cons f fs ih => exact ih _ (appendFrag_length_le _ _ h)

theorem buildArgMsg_fold_le (args : List LogArg) (buf : List Char)
    (h : buf.length ≤ 4095) :
    (args.foldl (fun b a => (FragsOfArg a).foldl AppendFrag b)
      buf).length ≤ 4095 := by
  induction args generalizing buf with
  | nil => simpa using h
  | cons a args ih => exact ih _ (foldFrags_length_le _ _ h)

/-- C2: for every sequence of structured arguments, whatever the sizes of the
name and value fields, the synthesized argument message stays inside the
fixed 4096-byte buffer: the built string is at most 4095 characters (plus the
terminator), and once the cursor has consumed the capacity a further fragment
append writes nothing at all (saturation, no out-of-bounds write). -/
theorem buildArgMsg_bounded :
    (∀ args : List LogArg, (BuildArgMsg args).length ≤ 4095) ∧
    (∀ buf frag : List Char, 4095 ≤ buf.length → AppendFrag buf frag = buf) := by
  constructor
  · intro args
    exact buildArgMsg_fold_le args [] (by simp)
  · intro buf frag h
    unfold AppendFrag TruncWrite ArgAvail
    split
    · simp
    · have : 4096 - buf.length - 1 = 0 := by omega
      simp [this]

/-- C2 witness: the bound and the saturation at concrete inputs. -/
theorem buildArgMsg_bounded_witness :
    (BuildArgMsg [⟨some "key", some "value", none, none⟩]).length ≤ 4095 ∧
    (4095 ≤ (List.replicate 4095 'a').length ∧
      AppendFrag (List.replicate 4095 'a') ['x'] = List.replicate 4095 'a') :=
  ⟨buildArgMsg_bounded.1 _,
    ⟨by rw [List.length_replicate],
      buildArgMsg_bounded.2 _ _ (by rw [List.length_replicate])⟩⟩

/-- C8: `ParseAndroidLogStats` overwrites (set, not add) each of the three
named stats counters whose field is present in the payload, and leaves every
other stats counter — including the three named ones when their field is
absent — unchanged. -/
theorem parseAndroidLogStats_set_semantics (evt : LogStats)
    (st : ParserState) :
    (ParseAndroidLogStats evt st).stats StatKey.androidLogNumFailed =
      (match evt.numFailed with
       | some v => toInt64 v
       | none => st.stats StatKey.androidLogNumFailed) ∧
    (ParseAndroidLogStats evt st).stats StatKey.androidLogNumSkipped =
      (match evt.numSkipped with
       | some v => toInt64 v
       | none => st.stats StatKey.androidLogNumSkipped) ∧
    (ParseAndroidLogStats evt st).stats StatKey.androidLogNumTotal =
      (match evt.numTotal with
       | some v => toInt64 v
       | none => st.stats StatKey.androidLogNumTotal) ∧
    (ParseAndroidLogStats evt st).stats StatKey.powerRailUnknownIndex =
      st.stats StatKey.powerRailUnknownIndex ∧
    (ParseAndroidLogStats evt st).stats StatKey.packagesListHasReadErrors =
      st.stats StatKey.packagesListHasReadErrors ∧
    (ParseAndroidLogStats evt st).stats StatKey.packagesListHasParseErrors =
      st.stats StatKey.packagesListHasParseErrors ∧
    (ParseAndroidLogStats evt st).stats StatKey.gameInterventionHasReadErrors =
      st.stats StatKey.gameInterventionHasReadErrors ∧
    (ParseAndroidLogStats evt st).stats StatKey.gameInterventionHasParseErrors =
      st.stats StatKey.gameInterventionHasParseErrors := by
  rcases evt with ⟨f, sk, t⟩
  cases f <;> cases sk <;> cases t <;>
    simp [ParseAndroidLogStats, SetStats]

/-- C5: a power-rail reading whose rail index has no binding in the per-trace
power-rail map appends zero counter samples, increments the
unknown-rail-index stat by exactly 1, and creates no track (neither the
global counter track registry nor the binding map changes); a bound index
appends exactly one counter sample at the call's timestamp to the bound
track and touches no stat. -/
theorem parsePowerRails_bound_vs_unbound (ts : Int) (evt : PowerRails)
    (st : ParserState) :
    match GetPowerRailTrack st evt.energyData.index with
    | none =>
      (ParsePowerRails ts evt st).counterSamples = st.counterSamples ∧
      (ParsePowerRails ts evt st).stats StatKey.powerRailUnknownIndex =
        st.stats StatKey.powerRailUnknownIndex + 1 ∧
      (ParsePowerRails ts evt st).globalCounterTracks =
        st.globalCounterTracks ∧
      (ParsePowerRails ts evt st).powerRailTracks = st.powerRailTracks
    | some t =>
      (ParsePowerRails ts evt st).counterSamples =
        st.counterSamples ++ [⟨ts, (evt.energyData.energy : Rat), t⟩] ∧
      (ParsePowerRails ts evt st).stats = st.stats ∧
      (ParsePowerRails ts evt st).globalCounterTracks =
        st.globalCounterTracks ∧
      (ParsePowerRails ts evt st).powerRailTracks = st.powerRailTracks := by
  rcases h : GetPowerRailTrack st evt.energyData.index with _ | t <;>
    simp [ParsePowerRails, h, IncrementStats, PushCounter]

/-- C7 counterexample: the log event whose source priority is 256 (nonzero)
is stored with priority 4 (the INFO sentinel), not 256 — the source first
truncates the priority to 8 bits (`static_cast<uint8_t>`), so a nonzero
source priority that is a multiple of 256 is not stored unchanged. -/
theorem parseAndroidLogEvent_prio_counterexample :
    (ParseAndroidLogEvent (fun _ _ => some 0) ⟨0, 0, 0, 256, none, none, []⟩
        InitState).androidLogTable.map LogRow.prio ≠ [256] ∧
    (ParseAndroidLogEvent (fun _ _ => some 0) ⟨0, 0, 0, 256, none, none, []⟩
        InitState).androidLogTable.map LogRow.prio = [prioInfo] := by
  decide

/-- C7 amended: the stored priority of a log event row is the source priority
truncated to its low 8 bits, with 0 (after truncation) replaced by the INFO
sentinel; no row is stored when clock translation fails. -/
theorem parseAndroidLogEvent_prio_row (clock : Nat → Int → Option Int)
    (evt : LogEvent) (st : ParserState) :
    (ParseAndroidLogEvent clock evt st).androidLogTable.map LogRow.prio =
      st.androidLogTable.map LogRow.prio ++
        (match clock builtinClockRealtime (toInt64 evt.timestamp) with
         | none => []
         | some _ =>
           [if evt.prio % 2 ^ 8 = 0 then prioInfo else evt.prio % 2 ^ 8]) := by
  simp only [ParseAndroidLogEvent]
  rcases hc : clock builtinClockRealtime (toInt64 evt.timestamp) with _ | t
  · split_ifs <;> simp
  · split_ifs <;> simp

/-- C1 counterexample: a log event whose realtime timestamp cannot be
translated still resolves its thread through the process tracker and still
interns its tag string — the short-circuit covers the row insert only, not
the earlier side effects. -/
theorem parseAndroidLogEvent_short_circuit_counterexample :
    ¬ ((ParseAndroidLogEvent (fun _ _ => none) ⟨5, 3, 3, 0, some "mytag", none, []⟩
          InitState).androidLogTable = InitState.androidLogTable ∧
       (ParseAndroidLogEvent (fun _ _ => none) ⟨5, 3, 3, 0, some "mytag", none, []⟩
          InitState).threadUpdates = InitState.threadUpdates ∧
       (ParseAndroidLogEvent (fun _ _ => none) ⟨5, 3, 3, 0, some "mytag", none, []⟩
          InitState).strings = InitState.strings) ∧
    (ParseAndroidLogEvent (fun _ _ => none) ⟨5, 3, 3, 0, some "mytag", none, []⟩
        InitState).androidLogTable = InitState.androidLogTable ∧
    (ParseAndroidLogEvent (fun _ _ => none) ⟨5, 3, 3, 0, some "mytag", none, []⟩
        InitState).threadUpdates = [(3, 3)] := by
  decide

/-- C1 amended: a log event whose realtime timestamp cannot be translated to
trace time produces zero log rows (the event is discarded, never buffered);
tag/message interning and thread resolution, which precede the translation
check in the source, still take place. -/
theorem parseAndroidLogEvent_translation_failure_no_row
    (clock : Nat → Int → Option Int) (evt : LogEvent) (st : ParserState)
    (h : clock builtinClockRealtime (toInt64 evt.timestamp) = none) :
    (ParseAndroidLogEvent clock evt st).androidLogTable =
      st.androidLogTable := by
  simp only [ParseAndroidLogEvent]
  rw [h]
  split_ifs <;> simp

/-- C1 witness: the amended theorem at a concrete unresolvable event. -/
theorem parseAndroidLogEvent_translation_failure_no_row_witness :
    ((fun _ _ => (none : Option Int)) builtinClockRealtime (toInt64 5) =
      none) ∧
    (ParseAndroidLogEvent (fun _ _ => none) ⟨5, 3, 3, 0, some "mytag", none, []⟩
        InitState).androidLogTable = InitState.androidLogTable :=
  ⟨rfl, parseAndroidLogEvent_translation_failure_no_row _ _ _ rfl⟩

/-- One optional-sub-counter block of `ParseBatteryCounters`, as a function of
the (track name id, optional value) pair: present value → intern the track
and push one sample; absent → no effect. -/
def BattBlock (ts : Int) (st : ParserState) (b : Nat × Option Rat) :
    ParserState :=
  match b.2 with
  | some v =>
    let p := InternGlobalCounterTrack st b.1
    PushCounter p.2 ts v p.1
  | none => st

theorem parseBattery_eq_fold (ts : Int) (evt : BatteryCounters)
    (st : ParserState) :
    ParseBatteryCounters ts evt st =
      [(battChargeId, evt.chargeCounterUah.map (fun v => (v : Rat))),
       (battCapacityId, evt.capacityPercent),
       (battCurrentId, evt.currentUa.map (fun v => (v : Rat))),
       (battCurrentAvgId,
         evt.currentAvgUa.map (fun v => (v : Rat)))].foldl (BattBlock ts)
        st := by
  rcases evt with ⟨c, cap, cur, avg⟩
  cases c <;> cases cap <;> cases cur <;> cases avg <;> rfl

theorem battBlock_cs (ts : Int) (st : ParserState) (b : Nat × Option Rat) :
    (BattBlock ts st b).counterSamples =
      st.counterSamples ++
        (match b.2 with
         | some v => [⟨ts, v, (InternGlobalCounterTrack st b.1).1⟩]
         | none => []) := by
  rcases b with ⟨n, _ | v⟩ <;> simp [BattBlock]

theorem battBlock_tracks_extend (ts : Int) (st : ParserState)
    (b : Nat × Option Rat) :
    ∃ l, (BattBlock ts st b).globalCounterTracks =
      st.globalCounterTracks ++ l := by
  rcases b with ⟨n, _ | v⟩
  · exact ⟨[], by simp [BattBlock]⟩
  · simpa [BattBlock] using internTrack_tracks_extend st n

theorem battFold_cs_extend (ts : Int) (bs : List (Nat × Option Rat))
    (st : ParserState) :
    ∃ l, (bs.foldl (BattBlock ts) st).counterSamples =
      st.counterSamples ++ l := by
  induction bs generalizing st with
  | nil => exact ⟨[], by simp⟩
  | cons b bs ih =>
    rcases ih (BattBlock ts st b) with ⟨l₂, h₂⟩
    refine ⟨(match b.2 with
      | some v => [⟨ts, v, (InternGlobalCounterTrack st b.1).1⟩]
      | none => ([] : List CounterSample)) ++ l₂, ?_⟩
    simp only [List.foldl_cons]
    rw [h₂, battBlock_cs, List.append_assoc]

theorem battFold_tracks_extend (ts : Int) (bs : List (Nat × Option Rat))
    (st : ParserState) :
    ∃ l, (bs.foldl (BattBlock ts) st).globalCounterTracks =
      st.globalCounterTracks ++ l := by
  induction bs generalizing st with
  | nil => exact ⟨[], by simp⟩
  | cons b bs ih =>
    rcases battBlock_tracks_extend ts st b with ⟨l₁, h₁⟩
    rcases ih (BattBlock ts st b) with ⟨l₂, h₂⟩
    refine ⟨l₁ ++ l₂, ?_⟩
    simp only [List.foldl_cons]
    rw [h₂, h₁, List.append_assoc]

theorem battFold_char (ts : Int) (bs : List (Nat × Option Rat))
    (st : ParserState) :
    (bs.foldl (BattBlock ts) st).counterSamples.take
        st.counterSamples.length = st.counterSamples ∧
    ((bs.foldl (BattBlock ts) st).counterSamples.drop
          st.counterSamples.length).map
        (fun c => (c.ts, c.value,
          (bs.foldl (BattBlock ts) st).globalCounterTracks[c.track]?)) =
      bs.flatMap (fun b =>
        match b.2 with
        | some v => [(ts, v, some b.1)]
        | none => []) := by
  induction bs generalizing st with
  | nil => simp
  | cons b bs ih =>
    rcases b with ⟨n, ob⟩
    rcases ih (BattBlock ts st (n, ob)) with ⟨ih1, ih2⟩
    rcases battFold_cs_extend ts bs (BattBlock ts st (n, ob)) with
      ⟨rest, hrest⟩
    have hblk := battBlock_cs ts st (n, ob)
    have hdrop : (bs.foldl (BattBlock ts)
        (BattBlock ts st (n, ob))).counterSamples.drop
          ((BattBlock ts st (n, ob)).counterSamples.length) = rest := by
      rw [hrest, List.drop_left]
    rw [hdrop] at ih2
    cases ob with
    | none =>
      simp only at hblk
      simp only [List.append_nil] at hblk
      constructor
      · simp only [List.foldl_cons]
        rw [hrest, hblk]
        exact List.take_left _ _
      · simp only [List.foldl_cons]
        rw [hrest, hblk, List.drop_left]
        simpa using ih2
    | some v =>
      simp only at hblk
      have hget : (bs.foldl (BattBlock ts)
          (BattBlock ts st (n, some v))).globalCounterTracks[(InternGlobalCounterTrack st n).1]? = some n := by
        apply getElem?_of_extend
          (battFold_tracks_extend ts bs (BattBlock ts st (n, some v)))
        have hb2 : (BattBlock ts st (n, some v)).globalCounterTracks =
            ((InternGlobalCounterTrack st n).2).globalCounterTracks := rfl
        rw [hb2]
        exact internTrack_get st n
      constructor
      · simp only [List.foldl_cons]
        rw [hrest, hblk, List.append_assoc]
        exact List.take_left _ _
      · simp only [List.foldl_cons]
        rw [hrest, hblk, List.append_assoc, List.drop_left, List.map_append]
        rw [ih2]
        simp [hget]

/-- C6: `ParseBatteryCounters` emits exactly one counter sample at the call's
timestamp on the corresponding global counter track (the track registered
under the matching `batt.*` name id) for each of the four optional
sub-counters present in the payload, and none for an absent sub-counter: the
emitted set has size 0 to 4 and matches the present subset exactly, with
previously stored samples untouched. -/
theorem parseBatteryCounters_present_subset (ts : Int)
    (evt : BatteryCounters) (st : ParserState) :
    (ParseBatteryCounters ts evt st).counterSamples.take
        st.counterSamples.length = st.counterSamples ∧
    ((ParseBatteryCounters ts evt st).counterSamples.drop
          st.counterSamples.length).map
        (fun c => (c.ts, c.value,
          (ParseBatteryCounters ts evt st).globalCounterTracks[c.track]?)) =
      (match evt.chargeCounterUah with
       | some v => [(ts, (v : Rat), some battChargeId)]
       | none => []) ++
      (match evt.capacityPercent with
       | some v => [(ts, v, some battCapacityId)]
       | none => []) ++
      (match evt.currentUa with
       | some v => [(ts, (v : Rat), some battCurrentId)]
       | none => []) ++
      (match evt.currentAvgUa with
       | some v => [(ts, (v : Rat), some battCurrentAvgId)]
       | none => []) := by
  rw [parseBattery_eq_fold]
  have h := battFold_char ts
    [(battChargeId, evt.chargeCounterUah.map (fun v => (v : Rat))),
     (battCapacityId, evt.capacityPercent),
     (battCurrentId, evt.currentUa.map (fun v => (v : Rat))),
     (battCurrentAvgId, evt.currentAvgUa.map (fun v => (v : Rat)))] st
  rcases evt with ⟨c, cap, cur, avg⟩
  cases c <;> cases cap <;> cases cur <;> cases avg <;>
    simpa using h

/-- C9: for a system-property packet carrying the screen-state property, a
value that parses as a signed 32-bit integer (e.g. "37") produces exactly one
counter sample with that value on the fixed screen-state track (the track
registered under the `ScreenState` name id), while a value that fails to
parse (e.g. "abc") produces zero samples and is dropped silently without
touching any stats counter. -/
theorem parseAndroidSystemProperty_screen_state (ts : Int)
    (st : ParserState) (v : String) :
    (match StringToInt32 v with
     | some n =>
       (ParseAndroidSystemProperty ts ⟨[⟨"debug.tracing.screen_state", v⟩]⟩
           st).counterSamples.take st.counterSamples.length =
         st.counterSamples ∧
       ((ParseAndroidSystemProperty ts ⟨[⟨"debug.tracing.screen_state", v⟩]⟩
             st).counterSamples.drop st.counterSamples.length).map
           (fun c => (c.ts, c.value,
             (ParseAndroidSystemProperty ts
                 ⟨[⟨"debug.tracing.screen_state", v⟩]⟩
                 st).globalCounterTracks[c.track]?)) =
         [(ts, (n : Rat), some screenStateId)] ∧
       (ParseAndroidSystemProperty ts ⟨[⟨"debug.tracing.screen_state", v⟩]⟩
           st).stats = st.stats
     | none =>
       (ParseAndroidSystemProperty ts ⟨[⟨"debug.tracing.screen_state", v⟩]⟩
           st).counterSamples = st.counterSamples ∧
       (ParseAndroidSystemProperty ts ⟨[⟨"debug.tracing.screen_state", v⟩]⟩
           st).stats = st.stats) ∧
    StringToInt32 "37" = some 37 ∧
    StringToInt32 "abc" = none := by
  have base : ParseAndroidSystemProperty ts
      ⟨[⟨"debug.tracing.screen_state", v⟩]⟩ st =
      (match StringToInt32 v with
       | some n =>
         PushCounter (InternGlobalCounterTrack st screenStateId).2 ts
           (n : Rat) (InternGlobalCounterTrack st screenStateId).1
       | none => st) := by
    simp only [ParseAndroidSystemProperty, List.foldl_cons, List.foldl_nil]
    simp only [if_true]
  refine ⟨?_, by decide, by decide⟩
  rcases h : StringToInt32 v with _ | n <;> rw [base, h]
  · exact ⟨rfl, rfl⟩
  · refine ⟨?_, ?_, ?_⟩
    · simp only [pushCounter_counterSamples, internTrack_counterSamples]
      exact List.take_left _ _
    · simp only [pushCounter_counterSamples, internTrack_counterSamples,
        List.drop_left, List.map_cons, List.map_nil]
      simp [internTrack_get st screenStateId]
    · simp

theorem lastOfMode_concat (k : Nat) (ms : List GameModeInfo)
    (m : GameModeInfo) :
    LastOfMode k (ms ++ [m]) =
      if m.mode = k then some m else LastOfMode k ms := by
  unfold LastOfMode
  rw [List.filter_append]
  by_cases h : m.mode = k
  · simp [List.filter_cons, h, List.getLast?_concat]
  · simp [List.filter_cons, h]

theorem foldGameMode_char (ms : List GameModeInfo) :
    ms.foldl FoldGameMode InitGameModeAcc = AccOfModes ms := by
  induction ms using List.reverseRecOn with
  | nil => rfl
  | append_singleton ms m ih =>
    rw [List.foldl_append, List.foldl_cons, List.foldl_nil, ih]
    by_cases hm1 : m.mode = 1
    · simp [FoldGameMode, AccOfModes, lastOfMode_concat, hm1]
    · by_cases hm2 : m.mode = 2
      · simp [FoldGameMode, AccOfModes, lastOfMode_concat, hm1, hm2]
      · by_cases hm3 : m.mode = 3
        · simp [FoldGameMode, AccOfModes, lastOfMode_concat, hm1, hm2, hm3]
        · simp [FoldGameMode, AccOfModes, lastOfMode_concat, hm1, hm2, hm3]

theorem gameLoop_table_length (st : ParserState) (pkg : GamePackageInfo) :
    (GameLoop st pkg).gameInterventionTable.length =
      st.gameInterventionTable.length + 1 := by
  simp [GameLoop]

theorem gameLoop_stats (st : ParserState) (pkg : GamePackageInfo) :
    (GameLoop st pkg).stats = st.stats := by
  simp [GameLoop]

theorem gameFold_table_length (pkgs : List GamePackageInfo)
    (st : ParserState) :
    (pkgs.foldl GameLoop st).gameInterventionTable.length =
      st.gameInterventionTable.length + pkgs.length := by
  induction pkgs generalizing st with
  | nil => simp
  | cons pkg pkgs ih =>
    simp only [List.foldl_cons, List.length_cons]
    rw [ih, gameLoop_table_length]
    omega

theorem gameFold_stats (pkgs : List GamePackageInfo) (st : ParserState) :
    (pkgs.foldl GameLoop st).stats = st.stats := by
  induction pkgs generalizing st with
  | nil => rfl
  | cons pkg pkgs ih =>
    simp only [List.foldl_cons]
    rw [ih, gameLoop_stats]

/-- C4: folding a package entry's mode sub-records maps mode numbers 1/2/3 to
the standard/performance/battery accumulators with last-write-wins overwrite
semantics and ignores any other mode number (the fold equals the spec-side
`AccOfModes`, built from the last sub-record per mode); the fold touches no
stats counter (the only stat writes are the two unconditional list-level
error flags); exactly one row is emitted per package entry regardless of how
many (including zero) sub-records it has; and on the example entry with
sub-records standard(fps=60), performance(fps=90), standard(fps=30) the
result has standard fps 30, performance fps 90 and all battery fields
absent. -/
theorem parseAndroidGameIntervention_folding :
    (∀ ms : List GameModeInfo,
      ms.foldl FoldGameMode InitGameModeAcc = AccOfModes ms) ∧
    (∀ (evt : AndroidGameInterventionList) (st : ParserState),
      (ParseAndroidGameIntervention evt st).gameInterventionTable.length =
        st.gameInterventionTable.length + evt.gamePackages.length) ∧
    (∀ (evt : AndroidGameInterventionList) (st : ParserState),
      (ParseAndroidGameIntervention evt st).stats =
        (SetStats
          (SetStats st StatKey.gameInterventionHasReadErrors
            (if evt.readError then 1 else 0))
          StatKey.gameInterventionHasParseErrors
          (if evt.parseError then 1 else 0)).stats) ∧
    ([⟨1, 1, 0, 60⟩, ⟨2, 1, 0, 90⟩,
        (⟨1, 1, 0, 30⟩ : GameModeInfo)].foldl FoldGameMode InitGameModeAcc =
      ⟨true, some 1, some 0, some 30, true, some 1, some 0, some 90,
        false, none, none, none⟩) ∧
    (ParseAndroidGameIntervention
        ⟨false, false, [⟨"com.game", 10, 1,
          [⟨1, 1, 0, 60⟩, ⟨2, 1, 0, 90⟩, ⟨1, 1, 0, 30⟩]⟩]⟩
        InitState).gameInterventionTable.length = 1 := by
  refine ⟨foldGameMode_char, ?_, ?_, by decide, by decide⟩
  · intro evt st
    simp only [ParseAndroidGameIntervention]
    rw [gameFold_table_length]
    simp [SetStats]
  · intro evt st
    simp only [ParseAndroidGameIntervention]
    rw [gameFold_stats]

theorem packageLoop_seen (st : ParserState) (pkg : PackageInfo)
    (h : pkg.name ∈ st.seenPackages) : PackageLoop st pkg = st := by
  simp [PackageLoop, h]

theorem packageLoop_seen_mono (st : ParserState) (pkg : PackageInfo)
    (n : String) (h : n ∈ st.seenPackages) :
    n ∈ (PackageLoop st pkg).seenPackages := by
  unfold PackageLoop
  by_cases hs : pkg.name ∈ st.seenPackages
  · simpa [hs] using h
  · simp only [hs, if_false]
    simp [h]

theorem packageLoop_name_seen (st : ParserState) (pkg : PackageInfo) :
    pkg.name ∈ (PackageLoop st pkg).seenPackages := by
  unfold PackageLoop
  by_cases hs : pkg.name ∈ st.seenPackages
  · simp [hs]
  · simp [hs]

theorem pkgsFold_seen_mono (l : List PackageInfo) (st : ParserState)
    (n : String) (h : n ∈ st.seenPackages) :
    n ∈ (l.foldl PackageLoop st).seenPackages := by
  induction l generalizing st with
  | nil => simpa using h
  | cons pkg l ih =>
    simp only [List.foldl_cons]
    exact ih _ (packageLoop_seen_mono st pkg n h)

theorem pkgsFold_names_seen (l : List PackageInfo) (st : ParserState)
    (pkg : PackageInfo) (h : pkg ∈ l) :
    pkg.name ∈ (l.foldl PackageLoop st).seenPackages := by
  induction l generalizing st with
  | nil => simp at h
  | cons q l ih =>
    simp only [List.foldl_cons]
    rcases List.mem_cons.mp h with rfl | hmem
    · exact pkgsFold_seen_mono l _ _ (packageLoop_name_seen st pkg)
    · exact ih _ hmem

theorem pkgsFold_all_seen_id (l : List PackageInfo) (st : ParserState)
    (h : ∀ pkg ∈ l, pkg.name ∈ st.seenPackages) :
    l.foldl PackageLoop st = st := by
  induction l generalizing st with
  | nil => rfl
  | cons pkg l ih =>
    simp only [List.foldl_cons]
    rw [packageLoop_seen st pkg (h pkg (by simp))]
    exact ih st (fun q hq => h q (by simp [hq]))

theorem packageLoop_inv (st : ParserState) (pkg : PackageInfo)
    (h : PackageInv st) : PackageInv (PackageLoop st pkg) := by
  unfold PackageLoop
  by_cases hs : pkg.name ∈ st.seenPackages
  · simpa [hs] using h
  · obtain ⟨hmap, hnd⟩ := h
    simp only [hs, if_false]
    unfold PackageInv
    dsimp only
    rw [internString_packageTable, internString_seenPackages]
    have hcong : ∀ r ∈ st.packageTable,
        ((InternString st pkg.name).2).strings[r.nameId]? =
          st.strings[r.nameId]? := by
      intro r hr
      have hin : st.strings[r.nameId]? ∈
          List.map (fun r => st.strings[r.nameId]?) st.packageTable :=
        List.mem_map_of_mem _ hr
      rw [hmap] at hin
      rcases List.mem_map.mp hin with ⟨s, _, hseq⟩
      calc ((InternString st pkg.name).2).strings[r.nameId]? = some s :=
            getElem?_of_extend (internString_strings_extend st pkg.name)
              hseq.symm
        _ = st.strings[r.nameId]? := hseq
    constructor
    · rw [List.map_append, List.map_append, List.map_congr_left hcong, hmap]
      simp [internString_get st pkg.name]
    · exact List.Nodup.append hnd (List.nodup_singleton _)
        (fun a ha hb => hs ((List.mem_singleton.mp hb) ▸ ha))

theorem pkgsFold_inv (l : List PackageInfo) (st : ParserState)
    (h : PackageInv st) : PackageInv (l.foldl PackageLoop st) := by
  induction l generalizing st with
  | nil => exact h
  | cons pkg l ih =>
    simp only [List.foldl_cons]
    exact ih _ (packageLoop_inv st pkg h)

/-- C3: package-list ingestion inserts at most one package row per distinct
name within a trace: a name not yet in the per-trace seen set is inserted
(with its interned name) and marked seen; a list whose names are all already
seen changes neither the table nor the seen set nor the interner; replaying
the same list immediately inserts nothing new; and the dedup invariant (rows'
names equal the duplicate-free seen set) is preserved by every call, so the
table's names stay duplicate-free. -/
theorem parseAndroidPackagesList_dedup :
    (∀ (st : ParserState) (re pe : Bool) (p : PackageInfo),
      p.name ∉ st.seenPackages →
      (ParseAndroidPackagesList ⟨re, pe, [p]⟩ st).seenPackages =
        st.seenPackages ++ [p.name] ∧
      ∃ id, (ParseAndroidPackagesList ⟨re, pe, [p]⟩ st).packageTable =
          st.packageTable ++ [⟨id, toInt64 p.uid, p.debuggable,
            p.profileableFromShell, toInt64 p.versionCode⟩] ∧
        (ParseAndroidPackagesList ⟨re, pe, [p]⟩ st).strings[id]? =
          some p.name) ∧
    (∀ (evt : PackagesList) (st : ParserState),
      (∀ pkg ∈ evt.packages, pkg.name ∈ st.seenPackages) →
      (ParseAndroidPackagesList evt st).packageTable = st.packageTable ∧
      (ParseAndroidPackagesList evt st).seenPackages = st.seenPackages ∧
      (ParseAndroidPackagesList evt st).strings = st.strings) ∧
    (∀ (evt : PackagesList) (st : ParserState),
      (ParseAndroidPackagesList evt
          (ParseAndroidPackagesList evt st)).packageTable =
        (ParseAndroidPackagesList evt st).packageTable) ∧
    (∀ (evt : PackagesList) (st : ParserState), PackageInv st →
      PackageInv (ParseAndroidPackagesList evt st) ∧
      ((ParseAndroidPackagesList evt st).packageTable.map
        (fun r =>
          (ParseAndroidPackagesList evt st).strings[r.nameId]?)).Nodup) := by
  have hfold_inv : ∀ (evt : PackagesList) (st : ParserState),
      PackageInv st → PackageInv (ParseAndroidPackagesList evt st) := by
    intro evt st h
    simp only [ParseAndroidPackagesList]
    apply pkgsFold_inv
    exact h
  refine ⟨?_, ?_, ?_, ?_⟩
  · intro st re pe p hns
    simp only [ParseAndroidPackagesList, List.foldl_cons, List.foldl_nil]
    unfold PackageLoop
    simp only [setStats_seenPackages]
    rw [if_neg hns]
    dsimp only
    refine ⟨by simp, (InternString
      (SetStats (SetStats st StatKey.packagesListHasReadErrors
        (if re then 1 else 0)) StatKey.packagesListHasParseErrors
        (if pe then 1 else 0)) p.name).1, by simp, ?_⟩
    exact internString_get _ p.name
  · intro evt st hall
    simp only [ParseAndroidPackagesList]
    rw [pkgsFold_all_seen_id _ _ (by simpa only [setStats_seenPackages]
      using hall)]
    exact ⟨rfl, rfl, rfl⟩
  · intro evt st
    conv in ParseAndroidPackagesList evt (ParseAndroidPackagesList evt st) =>
      rw [ParseAndroidPackagesList]
    rw [pkgsFold_all_seen_id]
    · rfl
    · intro pkg hpkg
      simp only [setStats_seenPackages, ParseAndroidPackagesList]
      exact pkgsFold_names_seen _ _ _ hpkg
  · intro evt st hinv
    have h := hfold_inv evt st hinv
    refine ⟨h, ?_⟩
    obtain ⟨hm, hn⟩ := h
    rw [hm]
    exact List.Nodup.map (Option.some_injective _) hn

/-- C3 witness: fresh-name insertion and invariant preservation at a concrete
package list against the freshly constructed trace context. -/
theorem parseAndroidPackagesList_dedup_witness :
    ("com.x" ∉ InitState.seenPackages ∧
      (ParseAndroidPackagesList ⟨false, false, [⟨"com.x", 1, false, false, 2⟩]⟩
          InitState).seenPackages = InitState.seenPackages ++ ["com.x"]) ∧
    (PackageInv InitState ∧
      PackageInv (ParseAndroidPackagesList
        ⟨false, false, [⟨"com.x", 1, false, false, 2⟩]⟩ InitState)) :=
  ⟨⟨by decide, (parseAndroidPackagesList_dedup.1 InitState false false
      ⟨"com.x", 1, false, false, 2⟩ (by decide)).1⟩,
   ⟨by decide, (parseAndroidPackagesList_dedup.2.2.2
      ⟨false, false, [⟨"com.x", 1, false, false, 2⟩]⟩ InitState
      (by decide)).1⟩⟩

/-- C10: when the pprof conversion yields no profiles, `TraceToProfile`
returns 0 with an empty filesystem effect trace (no temp directory created,
no file written, nothing printed); when it yields profiles, it returns 0
after creating one fresh temp directory and then writing exactly one file per
profile, each file directly under that directory. -/
theorem traceToProfile_effects :
    (∀ tmp timeFmt : String, TraceToProfile [] tmp timeFmt = (0, [], none)) ∧
    (∀ (p : SerializedProfile) (ps : List SerializedProfile)
        (tmp timeFmt : String),
      TraceToProfile (p :: ps) tmp timeFmt =
        (0, FsOp.mkdir (tmp ++ "/heap_profile-" ++ timeFmt) ::
          WriteProfiles (tmp ++ "/heap_profile-" ++ timeFmt) 0 (p :: ps),
          some ("Wrote profiles to " ++
            (tmp ++ "/heap_profile-" ++ timeFmt)))) ∧
    (∀ (dir : String) (i : Nat) (ps : List SerializedProfile),
      (WriteProfiles dir i ps).length = ps.length) ∧
    (∀ (dir : String) (i : Nat) (ps : List SerializedProfile),
      ∀ op ∈ WriteProfiles dir i ps, ∃ n p rest,
        op = FsOp.writeFile (ProfileFileName dir n p) p.serialized ∧
        ProfileFileName dir n p = dir ++ rest) := by
  refine ⟨?_, ?_, ?_, ?_⟩
  · intro tmp timeFmt
    simp [TraceToProfile]
  · intro p ps tmp timeFmt
    simp [TraceToProfile]
  · intro dir i ps
    induction ps generalizing i with
    | nil => simp [WriteProfiles]
    | cons p ps ih => simp [WriteProfiles, ih]
  · intro dir i ps
    induction ps generalizing i with
    | nil =>
      intro op h
      simp [WriteProfiles] at h
    | cons p ps ih =>
      intro op hop
      rw [WriteProfiles] at hop
      rcases List.mem_cons.mp hop with rfl | h
      · refine ⟨i + 1, p, "/heap_dump." ++ toString (i + 1) ++ "." ++
          toString p.pid ++ "." ++ p.heapName ++ ".pb", rfl, ?_⟩
        simp [ProfileFileName, String.append_assoc]
      · exact ih (i + 1) op h

/-- C10 witness: every write effect of a one-profile run targets a file
directly under the freshly created directory. -/
theorem traceToProfile_effects_witness :
    ∃ n p rest,
      FsOp.writeFile (ProfileFileName "/tmp/heapdir" 1 ⟨7, "malloc", "bytes"⟩)
          "bytes" =
        FsOp.writeFile (ProfileFileName "/tmp/heapdir" n p) p.serialized ∧
      ProfileFileName "/tmp/heapdir" n p = "/tmp/heapdir" ++ rest :=
  traceToProfile_effects.2.2.2 "/tmp/heapdir" 0 [⟨7, "malloc", "bytes"⟩] _
    (by simp [WriteProfiles])
